import Mathlib

/-!
Verification of the AMD (answering-machine-detection) ai-service pipeline.

Shallow embedding of the Python sources under `apps/ai-service/app`:
`utils/audio_processing.py`, `utils/response_parser.py`, `security.py`,
`routes/gemini_amd.py` and `routes/huggingface_amd.py`.

Modelling conventions:
- Python floats are modelled by exact rationals (`ℚ`); the claims under
  study are about control flow, integer truncation and ordering, not about
  binary floating-point rounding.
- Byte strings are modelled as `List ℕ` (each entry a byte value).
- Wall-clock effects (`time.time()` deltas used only for the
  `processingTimeMs` diagnostic field) are modelled as 0.
- External library calls (the Gemini upload/poll/generate API, the local
  model's `predict`, `load_audio_from_bytes`) are modelled as explicit
  outcome parameters: each such call either returns a value or raises, and
  the embedding quantifies over all outcomes.
-/

/-! ## Audio buffer (`utils/audio_processing.py`, class `AudioBuffer`) -/

/-- Little-endian signed 16-bit value of a byte pair, as in
`np.frombuffer(combined, dtype=np.int16)`. -/
def int16val (b0 b1 : ℕ) : ℤ :=
  let v : ℤ := (b0 : ℤ) + 256 * (b1 : ℤ)
  if 32768 ≤ v then v - 65536 else v

/-- Decode a little-endian 16-bit PCM byte stream to normalized samples:
`audio_int16.astype(np.float32) / 32768.0`.  (`np.frombuffer` requires an
even byte count; a trailing odd byte, unreachable for 16-bit chunks, is
ignored.) -/
def bytesToSamples : List ℕ → List ℚ
  | b0 :: b1 :: rest => ((int16val b0 b1 : ℚ) / 32768) :: bytesToSamples rest
  | _ => []

/-- `AudioBuffer.__init__` state: retained chunks plus the running sample
count `self._total_samples`. -/
structure AudioBuffer where
  sample_rate : ℕ
  channels : ℕ
  buffer : List (List ℕ)
  total_samples : ℕ
deriving DecidableEq

/-- `AudioBuffer(sample_rate, channels)`: empty buffer, zero samples. -/
def AudioBuffer.init (sample_rate : ℕ) (channels : ℕ) : AudioBuffer :=
  ⟨sample_rate, channels, [], 0⟩

/-- `AudioBuffer.append`: push the chunk and add `len(audio_data) // 2`
to the running sample count. -/
def AudioBuffer.append (b : AudioBuffer) (audio_data : List ℕ) : AudioBuffer :=
  { b with buffer := b.buffer ++ [audio_data],
           total_samples := b.total_samples + audio_data.length / 2 }

/-- `AudioBuffer.get_duration_ms`: `int((self._total_samples / self.sample_rate) * 1000)`,
i.e. (in exact arithmetic) `⌊total_samples * 1000 / sample_rate⌋`. -/
def AudioBuffer.get_duration_ms (b : AudioBuffer) : ℕ :=
  b.total_samples * 1000 / b.sample_rate

/-- `AudioBuffer.get_audio_array`: empty array when no chunks are retained,
otherwise join the chunks and decode as int16 PCM. -/
def AudioBuffer.get_audio_array (b : AudioBuffer) : List ℚ :=
  if b.buffer = [] then [] else bytesToSamples b.buffer.flatten

/-- `AudioBuffer.clear`. -/
def AudioBuffer.clear (b : AudioBuffer) : AudioBuffer :=
  { b with buffer := [], total_samples := 0 }

/-- `AudioBuffer.is_empty`: `len(self.buffer) == 0`. -/
def AudioBuffer.is_empty (b : AudioBuffer) : Bool :=
  decide (b.buffer = [])

/-- Append a whole list of chunks in order (used to state buffer claims). -/
def AudioBuffer.append_all (b : AudioBuffer) (chunks : List (List ℕ)) : AudioBuffer :=
  chunks.foldl AudioBuffer.append b

/-! ## Preprocessing (`utils/audio_processing.py`) -/

/-- `trim_silence(audio_array, threshold, sample_rate)`: if no sample has
`np.abs(audio_array) > threshold`, return the array unchanged; otherwise
return the slice `audio_array[first_sound : last_sound + 1]` where
`first_sound = np.argmax(non_silent)` (first exceeding index) and
`last_sound = len - np.argmax(non_silent[::-1]) - 1` (last exceeding
index). -/
def trim_silence (audio_array : List ℚ) (threshold : ℚ) (sample_rate : ℕ) : List ℚ :=
  let _ := sample_rate
  if audio_array.all (fun x => !decide (threshold < |x|)) then
    audio_array
  else
    let first_sound := audio_array.findIdx (fun x => decide (threshold < |x|))
    let last_sound :=
      audio_array.length - 1 - audio_array.reverse.findIdx (fun x => decide (threshold < |x|))
    (audio_array.drop first_sound).take (last_sound + 1 - first_sound)

/-- `normalize_audio(audio_array, target_level)`: scale by
`target_level / current_peak`, returning the array unchanged when the peak
is zero. -/
def normalize_audio (audio_array : List ℚ) (target_level : ℚ) : List ℚ :=
  let current_peak := (audio_array.map (fun x => |x|)).foldr max 0
  if current_peak = 0 then audio_array
  else audio_array.map (fun x => x * (target_level / current_peak))

/-! ## Python-string helpers -/

/-- Python `s[:n]`. -/
def py_slice_to (s : String) (n : ℕ) : String :=
  ⟨s.data.take n⟩

/-- Python `s.upper()`. -/
def str_upper (s : String) : String :=
  ⟨s.data.map Char.toUpper⟩

/-- Python `s.lower()`. -/
def str_lower (s : String) : String :=
  ⟨s.data.map Char.toLower⟩

/-- Python `needle in haystack` (contiguous substring test). -/
def str_in (needle haystack : String) : Bool :=
  decide (List.IsInfix needle.data haystack.data)

/-! ## Response parsing (`utils/response_parser.py`, `parse_gemini_response`)

The regex search `re.search(r'\x7b[^\x7d]+\x7d', text)` plus `json.loads`
plus dictionary-field access are Python-stdlib behaviour, modelled as an
abstract extraction outcome: `none` when there is no JSON match, the JSON
fails to load, or any field access / `float()` conversion raises (the
function's own `try` then falls through to the text heuristics); `some j`
when extraction produced a dictionary with the given optional fields. -/

/-- Abstract result of extracting the JSON object from the response text:
optional raw `classification` string, optional numeric `confidence`
(absent means the Python default `0.5` is used), optional `reasoning`. -/
structure GeminiJson where
  classification : Option String
  confidence : Option ℚ
  reasoning : Option String
deriving DecidableEq

/-- The dictionary returned by `parse_gemini_response`. -/
structure ParsedAMD where
  classification : String
  confidence : ℚ
  reasoning : String
deriving DecidableEq

/-- `parse_gemini_response(response_text)`, with the JSON extraction
abstracted as `jsonPart` (see above). -/
def parse_gemini_response (jsonPart : Option GeminiJson) (response_text : String) : ParsedAMD :=
  match jsonPart with
  | some result =>
    let classification0 := str_upper (result.classification.getD "UNKNOWN")
    let classification :=
      if classification0 = "HUMAN" ∨ classification0 = "MACHINE" ∨ classification0 = "UNKNOWN"
      then classification0 else "UNKNOWN"
    let confidence := max 0 (min 1 (result.confidence.getD (1/2)))
    ⟨classification, confidence, result.reasoning.getD ""⟩
  | none =>
    let text_lower := str_lower response_text
    if str_in "human" text_lower && !str_in "machine" text_lower then
      ⟨"HUMAN", 7/10, "Detected human from text analysis"⟩
    else if str_in "machine" text_lower || str_in "voicemail" text_lower then
      ⟨"MACHINE", 7/10, "Detected machine from text analysis"⟩
    else
      ⟨"UNKNOWN", 3/10, "Could not parse response"⟩

/-! ## Admission control (`security.py`) -/

/-- `RateLimiter` state: configuration plus the `defaultdict(list)` of
per-identifier timestamps (total function with default `[]`). -/
structure RateLimiter where
  max_requests : ℕ
  window_seconds : ℕ
  requests : String → List ℚ

/-- `RateLimiter.is_allowed(identifier)` at clock value `now`
(`time.time()` is modelled as an explicit parameter): purge timestamps not
strictly newer than `now - window_seconds`, store the purged list, deny if
already at the limit, otherwise record `now` and allow.  The
`self.lock` mutual exclusion makes the Python check-purge-append atomic;
the sequential model reflects exactly that atomicity. -/
def RateLimiter.is_allowed (limiter : RateLimiter) (identifier : String) (now : ℚ) :
    Bool × RateLimiter :=
  let window_start := now - (limiter.window_seconds : ℚ)
  let purged := (limiter.requests identifier).filter (fun req_time => decide (window_start < req_time))
  if limiter.max_requests ≤ purged.length then
    (false, { limiter with requests := fun i => if i = identifier then purged else limiter.requests i })
  else
    (true, { limiter with requests := fun i => if i = identifier then purged ++ [now] else limiter.requests i })

/-- FastAPI error raised by `check_rate_limit`: status 429 with a
`Retry-After` header holding the window length. -/
structure HTTPErrorModel where
  status : ℕ
  detail : String
  retryAfter : ℕ
deriving DecidableEq

/-- `check_rate_limit(identifier, limiter)`: `None` when allowed, the 429
error with `Retry-After = window_seconds` when denied. -/
def check_rate_limit (identifier : String) (limiter : RateLimiter) (now : ℚ) :
    Option HTTPErrorModel × RateLimiter :=
  let r := limiter.is_allowed identifier now
  if r.1 then (none, r.2)
  else (some ⟨429, "Rate limit exceeded. Please try again later.", limiter.window_seconds⟩, r.2)

/-- `predict_rate_limiter = RateLimiter(max_requests=20, window_seconds=60)`. -/
def predict_rate_limiter : RateLimiter :=
  ⟨20, 60, fun _ => []⟩

/-- Run `is_allowed` for one identifier at each clock value in turn,
collecting the verdicts. -/
def run_is_allowed (limiter : RateLimiter) (identifier : String) :
    List ℚ → List Bool × RateLimiter
  | [] => ([], limiter)
  | t :: ts =>
    let r := limiter.is_allowed identifier t
    let rest := run_is_allowed r.2 identifier ts
    (r.1 :: rest.1, rest.2)

/-! ## Configuration (`config.py`) -/

/-- `AudioConfig.SAMPLE_RATE`. -/
def AudioConfigSAMPLE_RATE : ℕ := 16000

/-- `AudioConfig.CHANNELS`. -/
def AudioConfigCHANNELS : ℕ := 1

/-- `AudioConfig.BUFFER_SIZE_MS`. -/
def AudioConfigBUFFER_SIZE_MS : ℕ := 3000

/-- `HuggingFaceConfig.CONFIDENCE_THRESHOLD`. -/
def HFConfigCONFIDENCE_THRESHOLD : ℚ := 7/10

/-- `HuggingFaceConfig.SAMPLE_RATE`. -/
def HFConfigSAMPLE_RATE : ℕ := 16000

/-- `HuggingFaceConfig.MAX_AUDIO_LENGTH_SECONDS`. -/
def HFConfigMAX_AUDIO_LENGTH_SECONDS : ℕ := 10

/-! ## Audio metrics (`utils/audio_processing.py`, class `AudioMetrics`)

`rms_level = sqrt(mean(x²))` is irrational in general; the model stores the
mean square instead and phrases every comparison against `rms_level` in the
equivalent squared form (`sqrt m < c ↔ m < c²` for `m ≥ 0`, `c > 0`). -/

/-- `AudioMetrics.from_audio` snapshot (squared-RMS encoding). -/
structure AudioMetricsModel where
  duration_seconds : ℚ
  sample_rate : ℕ
  mean_square : ℚ
  peak_level : ℚ
  is_clipping : Bool
  is_too_quiet : Bool
deriving DecidableEq

/-- `AudioMetrics.from_audio(audio_array, sample_rate)`:
`duration = len/sr`, `peak = max |x|`, `is_clipping = peak > 0.99`,
`is_too_quiet = rms < 0.01` (equivalently `mean_square < 0.0001`). -/
def AudioMetricsModel.from_audio (audio_array : List ℚ) (sample_rate : ℕ) : AudioMetricsModel :=
  let duration : ℚ := (audio_array.length : ℚ) / (sample_rate : ℚ)
  let mean_square : ℚ := ((audio_array.map (fun x => x * x)).sum) / (audio_array.length : ℚ)
  let peak : ℚ := (audio_array.map (fun x => |x|)).foldr max 0
  ⟨duration, sample_rate, mean_square, peak,
   decide ((99:ℚ)/100 < peak), decide (mean_square < 1/10000)⟩

/-! ## Local (HuggingFace) detector (`routes/huggingface_amd.py`) -/

/-- `HFAMDResponse` (the pydantic response model; `label` is a plain string
here — the upstream model loader is abstract). -/
structure HFAMDResponse where
  label : String
  confidence : ℚ
  reasoning : String
  processingTimeMs : ℕ
  audioMetrics : Option AudioMetricsModel
deriving DecidableEq

/-- `HuggingFaceAMDDetector._generate_reasoning(label, confidence, metrics)`. -/
def HuggingFaceAMDDetector.generate_reasoning
    (label : String) (confidence : ℚ) (metrics : AudioMetricsModel) : String :=
  let reasons : List String :=
    (if metrics.is_too_quiet then ["audio very quiet"] else [])
    ++ (if metrics.is_clipping then ["audio clipping detected"] else [])
    ++ [if 9/10 < confidence then "high confidence " ++ label ++ " detection"
        else if 7/10 < confidence then "moderate confidence " ++ label ++ " detection"
        else "low confidence " ++ label ++ " detection"]
    ++ (if metrics.duration_seconds < 1 then ["very short audio"] else [])
  if reasons = [] then label ++ " detected" else String.intercalate ", " reasons

/-- Outcomes of the two fallible steps inside `analyze_audio`'s `try`:
`load_audio_from_bytes` (error carries `str(e)`) and
`model_loader.predict` (error carries `str(e)`). -/
structure HFOutcome where
  loadResult : Except String (List ℚ × ℕ)
  predictResult : Except String (String × ℚ)

/-- The `except Exception` branch of `HuggingFaceAMDDetector.analyze_audio`:
label `unknown`, confidence `0.0`, reasoning
`f"Processing error: {str(e)[:100]}"`. -/
def HuggingFaceAMDDetector.errorResponse (e : String) : HFAMDResponse :=
  ⟨"unknown", 0, "Processing error: " ++ py_slice_to e 100, 0, none⟩

/-- `HuggingFaceAMDDetector.analyze_audio(audio_data, call_sid, preprocess)`:
load, reject empty arrays, compute metrics, optionally trim + normalize,
cap the length, predict; any raising step lands in the `except` branch.
(`_ensure_model_loaded()` runs before the `try` and is outside this model;
its failures propagate and are not part of the analyzed claims.) -/
def HuggingFaceAMDDetector.analyze_audio (o : HFOutcome) (preprocess : Bool) : HFAMDResponse :=
  match o.loadResult with
  | .error e => HuggingFaceAMDDetector.errorResponse e
  | .ok (audio_array, sample_rate) =>
    if audio_array.length = 0 then
      HuggingFaceAMDDetector.errorResponse "Empty audio array"
    else
      let metrics := AudioMetricsModel.from_audio audio_array sample_rate
      let arr1 :=
        if preprocess then
          normalize_audio (trim_silence audio_array (1/100) sample_rate) (9/10)
        else audio_array
      let max_length := HFConfigSAMPLE_RATE * HFConfigMAX_AUDIO_LENGTH_SECONDS
      let arr2 := if max_length < arr1.length then arr1.take max_length else arr1
      let _ := arr2
      match o.predictResult with
      | .error e => HuggingFaceAMDDetector.errorResponse e
      | .ok (label, confidence) =>
        ⟨label, confidence,
         HuggingFaceAMDDetector.generate_reasoning label confidence metrics, 0, some metrics⟩

/-! ## Remote (Gemini) detector (`routes/gemini_amd.py`) -/

/-- A raised Python exception, identified by its type name
(`type(e).__name__`, the only part of it the `except` branch re-exposes). -/
structure PyExc where
  name : String
deriving DecidableEq

/-- Handle returned by `genai.upload_file`. -/
structure GFile where
  name : String
deriving DecidableEq

/-- State of the uploaded file once the `while ... == "PROCESSING"` polling
loop exits (an indefinitely-`PROCESSING` file keeps the Python loop spinning
and never reaches the rest of the function; only terminating runs are
modelled). -/
inductive GFileFinal where
  | failed
  | ready
deriving DecidableEq

/-- Outcome of `model.generate_content`: a response with no usable
candidates/parts (blocked by safety filters), or a textual response; the
text's JSON extraction is abstracted as in `parse_gemini_response`. -/
inductive GenResult where
  | blocked
  | text (jsonPart : Option GeminiJson) (raw : String)

/-- Outcomes of the fallible remote calls inside `analyze_audio`'s `try`. -/
structure GeminiOutcome where
  upload : Except PyExc GFile
  poll : Except PyExc GFileFinal
  generate : Except PyExc GenResult

/-- `AMDResponse` (the pydantic response model of the Gemini route). -/
structure AMDResponse where
  result : String
  confidence : ℚ
  reasoning : String
  processingTimeMs : ℕ
deriving DecidableEq

/-- A run of `GeminiAMDDetector.analyze_audio` together with its
resource-management effects: whether `genai.upload_file` succeeded and
whether `genai.delete_file` was called on the uploaded handle before
returning. -/
structure GeminiRun where
  response : AMDResponse
  uploaded : Bool
  deleted : Bool
deriving DecidableEq

/-- The `except Exception` branch of `GeminiAMDDetector.analyze_audio`:
result `UNDECIDED`, confidence `0.3`, reasoning
`f"Processing error: {type(e).__name__}"`. -/
def GeminiAMDDetector.errorResponse (e : PyExc) : AMDResponse :=
  ⟨"UNDECIDED", 3/10, "Processing error: " ++ e.name, 0⟩

/-- `GeminiAMDDetector.analyze_audio(audio_data, call_sid)`: upload, poll
until no longer `PROCESSING`, raise on the `FAILED` state, generate, handle
the blocked-response path (deleting the file), otherwise parse the text and
delete the file before building the response.  `AMDResponse.result` is
`Literal["HUMAN", "MACHINE", "UNDECIDED"]`, so a parsed classification of
`"UNKNOWN"` makes the pydantic constructor raise, landing in the `except`
branch (after the delete has already happened).  The `except` branch does
not delete the uploaded file. -/
def GeminiAMDDetector.analyze_audio (o : GeminiOutcome) : GeminiRun :=
  match o.upload with
  | .error e => ⟨GeminiAMDDetector.errorResponse e, false, false⟩
  | .ok _audio_file =>
    match o.poll with
    | .error e => ⟨GeminiAMDDetector.errorResponse e, true, false⟩
    | .ok .failed =>
      -- `raise Exception("Audio processing failed")`, caught by the same `try`
      ⟨GeminiAMDDetector.errorResponse ⟨"Exception"⟩, true, false⟩
    | .ok .ready =>
      match o.generate with
      | .error e => ⟨GeminiAMDDetector.errorResponse e, true, false⟩
      | .ok .blocked =>
        ⟨⟨"UNDECIDED", 1/2, "Response blocked by safety filters", 0⟩, true, true⟩
      | .ok (.text jsonPart raw) =>
        let result := parse_gemini_response jsonPart raw
        if result.classification = "UNKNOWN" then
          ⟨GeminiAMDDetector.errorResponse ⟨"ValidationError"⟩, true, true⟩
        else
          ⟨⟨result.classification, result.confidence, result.reasoning, 0⟩, true, true⟩

/-! ## Streaming session (`routes/huggingface_amd.py`, `stream_amd`)

The WebSocket loop is modelled as a state machine over a list of events:
a received binary chunk, or an `asyncio.TimeoutError` from the 5-second
`wait_for`.  `model_loader.predict` is abstracted as a pure function
parameter; every input passed to it is recorded so that claims about what
the classifier receives can be stated.  Disconnects and send failures
simply end the loop and are not modelled. -/

/-- One loop iteration's stimulus. -/
inductive StreamEvent where
  | chunk (data : List ℕ)
  | timeout
deriving DecidableEq

/-- An outgoing verdict message
`{"label": ..., "confidence": ..., "duration_ms": ..., "reason"?: ...}`. -/
structure StreamMsg where
  label : String
  confidence : ℚ
  duration_ms : ℕ
  reason : Option String
deriving DecidableEq

/-- Session state: the audio buffer, whether the loop has ended
(`websocket.close` / `break`), the messages sent so far, and the sample
arrays handed to `model_loader.predict` so far. -/
structure StreamState where
  buffer : AudioBuffer
  closed : Bool
  sent : List StreamMsg
  predicted : List (List ℚ)
deriving DecidableEq

/-- Initial state on connect: a fresh
`AudioBuffer(sample_rate=AudioConfig.SAMPLE_RATE, channels=AudioConfig.CHANNELS)`. -/
def stream_amd_init : StreamState :=
  ⟨AudioBuffer.init AudioConfigSAMPLE_RATE AudioConfigCHANNELS, false, [], []⟩

/-- One iteration of the `stream_amd` loop body.  On a chunk: append, and
when `get_duration_ms() >= BUFFER_SIZE_MS` with a non-empty decoded array,
predict on the raw decoded buffer, send the verdict, clear the buffer, and
close only when `confidence > CONFIDENCE_THRESHOLD`.  On a timeout: if the
buffer is non-empty, predict on the raw decoded buffer, send the verdict
tagged `reason="timeout"`, close; either way the loop `break`s. -/
def stream_amd_step (predict : List ℚ → String × ℚ) (s : StreamState) (e : StreamEvent) :
    StreamState :=
  if s.closed then s else
  match e with
  | .chunk data =>
    let b := s.buffer.append data
    let current_duration := b.get_duration_ms
    if AudioConfigBUFFER_SIZE_MS ≤ current_duration then
      let audio_array := b.get_audio_array
      if 0 < audio_array.length then
        let r := predict audio_array
        let sent := s.sent ++ [⟨r.1, r.2, current_duration, none⟩]
        let b2 := b.clear
        if HFConfigCONFIDENCE_THRESHOLD < r.2 then
          ⟨b2, true, sent, s.predicted ++ [audio_array]⟩
        else
          ⟨b2, false, sent, s.predicted ++ [audio_array]⟩
      else ⟨b, false, s.sent, s.predicted⟩
    else ⟨b, false, s.sent, s.predicted⟩
  | .timeout =>
    if s.buffer.is_empty then
      ⟨s.buffer, true, s.sent, s.predicted⟩
    else
      let audio_array := s.buffer.get_audio_array
      let r := predict audio_array
      ⟨s.buffer, true,
       s.sent ++ [⟨r.1, r.2, s.buffer.get_duration_ms, some "timeout"⟩],
       s.predicted ++ [audio_array]⟩

/-- Run the loop from the initial state over a list of events. -/
def stream_amd_run (predict : List ℚ → String × ℚ) (events : List StreamEvent) : StreamState :=
  events.foldl (stream_amd_step predict) stream_amd_init

/-! ## Helper lemmas -/

/-- `append_all` leaves the sample rate unchanged. -/
theorem AudioBuffer.append_all_sample_rate (b : AudioBuffer) (chunks : List (List ℕ)) :
    (b.append_all chunks).sample_rate = b.sample_rate := by
  induction chunks generalizing b with
  | nil => rfl
  | cons c cs ih => simpa [AudioBuffer.append_all, AudioBuffer.append] using ih (b.append c)

/-- `append_all` adds `Σ ⌊len(chunk)/2⌋` to the running sample count. -/
theorem AudioBuffer.append_all_total_samples (b : AudioBuffer) (chunks : List (List ℕ)) :
    (b.append_all chunks).total_samples
      = b.total_samples + (chunks.map (fun c => c.length / 2)).sum := by
  induction chunks generalizing b with
  | nil => simp [AudioBuffer.append_all]
  | cons c cs ih =>
    have h := ih (b.append c)
    simp only [AudioBuffer.append_all, List.foldl_cons] at h ⊢
    rw [h]
    simp [AudioBuffer.append]
    omega

/-- Halving even chunk lengths individually loses nothing. -/
theorem sum_half_lengths_of_even (chunks : List (List ℕ))
    (h : ∀ c ∈ chunks, c.length % 2 = 0) :
    ((chunks.map (fun c => c.length / 2)).sum) * 2 = (chunks.map List.length).sum := by
  induction chunks with
  | nil => simp
  | cons c cs ih =>
    have hc := h c (List.mem_cons_self c cs)
    have hcs := ih (fun d hd => h d (List.mem_cons_of_mem c hd))
    simp only [List.map_cons, List.sum_cons]
    omega

/-- C4 (amended): for every sample rate and every chunk sequence, the
buffer's duration is `⌊(Σ ⌊Lᵢ/2⌋) × 1000 / sampleRate⌋` — the sample count
floors each chunk's byte length separately; when every chunk has even byte
length (as genuine 16-bit PCM chunks do) this coincides with the claim's
`⌊(ΣLᵢ/2) / sampleRate × 1000⌋ = ⌊ΣLᵢ × 500 / sampleRate⌋`. -/
theorem audio_buffer_duration_formula (sample_rate : ℕ) (chunks : List (List ℕ)) :
    ((AudioBuffer.init sample_rate 1).append_all chunks).get_duration_ms
      = ((chunks.map (fun c => c.length / 2)).sum * 1000) / sample_rate
    ∧ ((∀ c ∈ chunks, c.length % 2 = 0) →
      ((AudioBuffer.init sample_rate 1).append_all chunks).get_duration_ms
        = ((chunks.map List.length).sum * 500) / sample_rate) := by
  have hdur : ((AudioBuffer.init sample_rate 1).append_all chunks).get_duration_ms
      = ((chunks.map (fun c => c.length / 2)).sum * 1000) / sample_rate := by
    rw [AudioBuffer.get_duration_ms, AudioBuffer.append_all_sample_rate,
        AudioBuffer.append_all_total_samples]
    simp [AudioBuffer.init]
  refine ⟨hdur, fun heven => ?_⟩
  rw [hdur]
  have h2 := sum_half_lengths_of_even chunks heven
  have : (chunks.map (fun c => c.length / 2)).sum * 1000
      = (chunks.map List.length).sum * 500 := by omega
  rw [this]

/-- Witness for C4: three 6000-byte chunks at 16000 Hz give 562 ms,
the claim's own instance, via the amended formula. -/
theorem audio_buffer_duration_formula_witness :
    ((AudioBuffer.init 16000 1).append_all
      [List.replicate 6000 0, List.replicate 6000 0, List.replicate 6000 0]).get_duration_ms
      = 562 := by
  have h := (audio_buffer_duration_formula 16000
      [List.replicate 6000 0, List.replicate 6000 0, List.replicate 6000 0]).2
      (by intro c hc; simp only [List.mem_cons, List.not_mem_nil, or_false] at hc
          rcases hc with rfl | rfl | rfl <;> rw [List.length_replicate])
  rw [h]
  simp only [List.map_cons, List.map_nil, List.length_replicate, List.sum_cons, List.sum_nil]
  norm_num

set_option maxRecDepth 4000 in
/-- Counterexample to C4 as stated: thirty-two one-byte chunks at 16000 Hz.
The code's `get_duration_ms` floors each `len // 2` to 0 and returns 0; the
claim's formula `⌊(ΣLᵢ/2) / sampleRate × 1000⌋ = ⌊(32/2)/16000 × 1000⌋`
gives 1. -/
theorem audio_buffer_duration_claim_cex :
    ((((AudioBuffer.init 16000 1).append_all (List.replicate 32 [0])).get_duration_ms : ℤ))
      ≠ ⌊(((((List.replicate 32 ([0] : List ℕ)).map List.length).sum : ℚ) / 2) / 16000) * 1000⌋ := by
  have h1 : ((AudioBuffer.init 16000 1).append_all (List.replicate 32 [0])).get_duration_ms = 0 := by
    decide
  have h2 : (((List.replicate 32 ([0] : List ℕ)).map List.length).sum : ℚ) = 32 := by
    norm_num [List.map_replicate, List.sum_replicate]
  rw [h1, h2]
  norm_num

/-- `findIdx` returns `i` when the predicate holds at `i` and at no earlier
index. -/
theorem findIdx_eq_of_first {α : Type} (p : α → Bool) :
    ∀ (l : List α) (i : ℕ) (hi : i < l.length),
      p (l.get ⟨i, hi⟩) = true →
      (∀ k (hk : k < l.length), k < i → p (l.get ⟨k, hk⟩) = false) →
      l.findIdx p = i := by
  intro l
  induction l with
  | nil => intro i hi _ _; simp at hi
  | cons a t ih =>
    intro i hi hp hmin
    cases i with
    | zero =>
      have ha : p a = true := hp
      rw [List.findIdx_cons, ha]
      rfl
    | succ n =>
      have ha : p a = false := hmin 0 (by omega) (by omega)
      rw [List.findIdx_cons, ha]
      have ht := ih n (by simpa using Nat.lt_of_succ_lt_succ hi) hp
        (fun k hk hkn => hmin (k + 1) (by omega) (by omega))
      simpa using ht

/-- `findIdx` on the reversed list returns `length - 1 - j` when the
predicate holds at `j` and at no later index. -/
theorem findIdx_reverse_eq_of_last {α : Type} (p : α → Bool) (l : List α) (j : ℕ)
    (hj : j < l.length) (hp : p (l.get ⟨j, hj⟩) = true)
    (hmax : ∀ k (hk : k < l.length), j < k → p (l.get ⟨k, hk⟩) = false) :
    l.reverse.findIdx p = l.length - 1 - j := by
  have hlen : l.reverse.length = l.length := List.length_reverse l
  apply findIdx_eq_of_first p l.reverse (l.length - 1 - j) (by omega)
  · rw [List.get_eq_getElem, List.getElem_reverse]
    have e : l.length - 1 - (l.length - 1 - j) = j := by omega
    simp only [e]
    simpa [List.get_eq_getElem] using hp
  · intro k hk hklt
    rw [List.get_eq_getElem, List.getElem_reverse]
    have h2 := hmax (l.length - 1 - k) (by omega) (by omega)
    simpa [List.get_eq_getElem] using h2

/-- C8: `trim_silence` returns the array unchanged when no sample exceeds
the threshold in absolute value, and otherwise returns exactly the
inclusive sub-range from the first exceeding index `i` to the last
exceeding index `j`. -/
theorem trim_silence_spec (l : List ℚ) (t : ℚ) (sr : ℕ) :
    ((∀ x ∈ l, |x| ≤ t) → trim_silence l t sr = l) ∧
    (∀ i j (hi : i < l.length) (hj : j < l.length),
      t < |l.get ⟨i, hi⟩| →
      (∀ k (hk : k < l.length), k < i → |l.get ⟨k, hk⟩| ≤ t) →
      t < |l.get ⟨j, hj⟩| →
      (∀ k (hk : k < l.length), j < k → |l.get ⟨k, hk⟩| ≤ t) →
      trim_silence l t sr = (l.drop i).take (j + 1 - i)) := by
  constructor
  · intro h
    have hcond : (l.all fun x => !decide (t < |x|)) = true := by
      apply List.all_eq_true.mpr
      intro x hx
      simpa using not_lt.mpr (h x hx)
    simp only [trim_silence, hcond, if_true]
  · intro i j hi hj hpi hmin hpj hmax
    have hcond : (l.all fun x => !decide (t < |x|)) = false := by
      apply List.all_eq_false.mpr
      exact ⟨l.get ⟨i, hi⟩, List.get_mem l i hi, by simpa [List.get_eq_getElem] using hpi⟩
    have e1 : l.findIdx (fun x => decide (t < |x|)) = i :=
      findIdx_eq_of_first _ l i hi (by simpa using hpi)
        (fun k hk hki => by simpa using not_lt.mpr (hmin k hk hki))
    have e2 : l.reverse.findIdx (fun x => decide (t < |x|)) = l.length - 1 - j :=
      findIdx_reverse_eq_of_last _ l j hj (by simpa using hpj)
        (fun k hk hjk => by simpa using not_lt.mpr (hmax k hk hjk))
    have e3 : l.length - 1 - (l.length - 1 - j) = j := by omega
    simp only [trim_silence, hcond, Bool.false_eq_true, if_false, e1, e2, e3]

/-- Witness for C8: on `[0, 1/2, 0]` with threshold `0.01` the only
exceeding index is 1, and `trim_silence` returns `[1/2]`. -/
theorem trim_silence_spec_witness :
    trim_silence [0, 1/2, 0] (1/100) 16000 = [1/2] := by
  have habs : (1:ℚ)/100 < |(1:ℚ)/2| := by
    rw [abs_of_nonneg (by norm_num : (0:ℚ) ≤ 1/2)]
    norm_num
  have hz : |(0:ℚ)| ≤ 1/100 := by rw [abs_zero]; norm_num
  have h := (trim_silence_spec [0, 1/2, 0] (1/100) 16000).2 1 1
    (by norm_num) (by norm_num) habs
    (by intro k hk hlt
        have : k = 0 := by omega
        subst this
        exact hz)
    habs
    (by intro k hk hlt
        simp only [List.length_cons, List.length_nil] at hk
        have : k = 2 := by omega
        subst this
        exact hz)
  simpa using h

/-- C9: every verdict produced by `parse_gemini_response` has confidence in
`[0, 1]` — clamped even when the upstream JSON value is out of range — and
a classification drawn only from HUMAN, MACHINE, UNKNOWN. -/
theorem parse_gemini_response_bounds (jsonPart : Option GeminiJson) (raw : String) :
    0 ≤ (parse_gemini_response jsonPart raw).confidence ∧
    (parse_gemini_response jsonPart raw).confidence ≤ 1 ∧
    (parse_gemini_response jsonPart raw).classification
      ∈ (["HUMAN", "MACHINE", "UNKNOWN"] : List String) := by
  cases jsonPart with
  | some j =>
    refine ⟨le_max_left 0 _, max_le zero_le_one (min_le_left 1 _), ?_⟩
    simp only [parse_gemini_response]
    by_cases hc : str_upper (j.classification.getD "UNKNOWN") = "HUMAN"
        ∨ str_upper (j.classification.getD "UNKNOWN") = "MACHINE"
        ∨ str_upper (j.classification.getD "UNKNOWN") = "UNKNOWN"
    · rw [if_pos hc]
      rcases hc with h | h | h <;> rw [h] <;> simp
    · rw [if_neg hc]
      simp
  | none =>
    simp only [parse_gemini_response]
    split_ifs <;> refine ⟨by norm_num, by norm_num, by simp⟩

/-- While an identifier's recorded timestamps plus the remaining checks fit
under a 20-request limit and all times lie in `[0, 1]`, every check in a
run against the 20/60 limiter is allowed and the timestamps accumulate. -/
theorem run_is_allowed_under_limit (identifier : String) :
    ∀ (ts : List ℚ) (base : String → List ℚ) (acc : List ℚ),
      base identifier = acc →
      (∀ x ∈ acc, 0 ≤ x) →
      (∀ x ∈ ts, 0 ≤ x ∧ x ≤ 1) →
      acc.length + ts.length ≤ 20 →
      ∃ base2,
        run_is_allowed ⟨20, 60, base⟩ identifier ts
          = (List.replicate ts.length true, ⟨20, 60, base2⟩) ∧
        base2 identifier = acc ++ ts := by
  intro ts
  induction ts with
  | nil =>
    intro base acc hbase _ _ _
    exact ⟨base, rfl, by simp [hbase]⟩
  | cons t ts ih =>
    intro base acc hbase hacc hts hlen
    simp only [List.length_cons] at hlen
    have ht01 := hts t (List.mem_cons_self t ts)
    have hfil : (base identifier).filter
        (fun req_time => decide (t - ((60 : ℕ) : ℚ) < req_time)) = acc := by
      rw [hbase]
      apply List.filter_eq_self.mpr
      intro x hx
      have hx0 := hacc x hx
      have : t - ((60 : ℕ) : ℚ) < x := by push_cast; linarith [ht01.2]
      simpa using this
    have hnotfull : ¬ (20 ≤ acc.length) := by omega
    have hstep : RateLimiter.is_allowed ⟨20, 60, base⟩ identifier t
        = (true, ⟨20, 60,
            fun i => if i = identifier then acc ++ [t] else base i⟩) := by
      simp only [RateLimiter.is_allowed, hfil]
      rw [if_neg hnotfull]
    obtain ⟨base2, hrun, hbase2⟩ := ih
      (fun i => if i = identifier then acc ++ [t] else base i) (acc ++ [t])
      (by simp)
      (by intro x hx
          rcases List.mem_append.mp hx with h | h
          · exact hacc x h
          · simp only [List.mem_singleton] at h
            subst h
            exact ht01.1)
      (fun x hx => hts x (List.mem_cons_of_mem t hx))
      (by simp only [List.length_append, List.length_singleton]
          omega)
    refine ⟨base2, ?_, ?_⟩
    · simp only [run_is_allowed, hstep, hrun, List.length_cons, List.replicate_succ]
    · rw [hbase2]
      simp

/-- C5: against `predict_rate_limiter` (20 requests / 60 s), twenty
`is_allowed` checks for one identifier at times within one second all
return allow, and the twenty-first check within the same 60-second window
is denied by `check_rate_limit` with a 429 carrying `Retry-After = 60`. -/
theorem rate_limiter_twenty_then_denied (ts : List ℚ) (t : ℚ) (identifier : String)
    (hlen : ts.length = 20)
    (hts : ∀ x ∈ ts, 0 ≤ x ∧ x ≤ 1)
    (ht0 : 0 ≤ t) (ht1 : t < 60) :
    (run_is_allowed predict_rate_limiter identifier ts).1 = List.replicate 20 true ∧
    (check_rate_limit identifier (run_is_allowed predict_rate_limiter identifier ts).2 t).1
      = some ⟨429, "Rate limit exceeded. Please try again later.", 60⟩ := by
  obtain ⟨base2, hrun, hbase2⟩ := run_is_allowed_under_limit identifier ts
    (fun _ => []) [] rfl (by intro x hx; simp at hx) hts
    (by simp only [List.length_nil, hlen]; omega)
  have hrun' : run_is_allowed predict_rate_limiter identifier ts
      = (List.replicate 20 true, ⟨20, 60, base2⟩) := by
    rw [show predict_rate_limiter = ⟨20, 60, fun _ => []⟩ from rfl, hrun, hlen]
  refine ⟨by rw [hrun'], ?_⟩
  rw [hrun']
  have hbase2' : base2 identifier = ts := by simpa using hbase2
  have hfil : (base2 identifier).filter
      (fun req_time => decide (t - ((60 : ℕ) : ℚ) < req_time)) = ts := by
    rw [hbase2']
    apply List.filter_eq_self.mpr
    intro x hx
    have hx0 := (hts x hx).1
    have hlt : t - ((60 : ℕ) : ℚ) < x := by push_cast; linarith
    simpa using hlt
  simp only [check_rate_limit, RateLimiter.is_allowed, hfil]
  rw [if_pos (by rw [hlen] : (⟨20, 60, base2⟩ : RateLimiter).max_requests ≤ ts.length)]
  simp

/-- Witness for C5: twenty checks at time 0 for one client IP are all
allowed; a further check at time 0.5 is denied with `Retry-After = 60`. -/
theorem rate_limiter_twenty_then_denied_witness :
    (run_is_allowed predict_rate_limiter "203.0.113.7" (List.replicate 20 0)).1
      = List.replicate 20 true ∧
    (check_rate_limit "203.0.113.7"
      (run_is_allowed predict_rate_limiter "203.0.113.7" (List.replicate 20 0)).2 (1/2)).1
      = some ⟨429, "Rate limit exceeded. Please try again later.", 60⟩ :=
  rate_limiter_twenty_then_denied (List.replicate 20 0) (1/2) "203.0.113.7"
    (by simp)
    (by intro x hx
        have := List.eq_of_mem_replicate hx
        subst this
        norm_num)
    (by norm_num) (by norm_num)

/-- C10: `is_allowed` keeps every identifier's retained timestamp list at
length at most `max_requests` — the purge can only shrink a list, and the
new timestamp is appended only when the purged list is strictly below the
limit — so per-identifier memory stays bounded. -/
theorem rate_limiter_bounded_memory (limiter : RateLimiter) (identifier j : String) (now : ℚ)
    (h : ∀ i, (limiter.requests i).length ≤ limiter.max_requests) :
    (((limiter.is_allowed identifier now).2).requests j).length ≤ limiter.max_requests := by
  simp only [RateLimiter.is_allowed]
  set purged := (limiter.requests identifier).filter
    (fun req_time => decide (now - (limiter.window_seconds : ℚ) < req_time)) with hp
  have hple : purged.length ≤ (limiter.requests identifier).length :=
    List.length_filter_le _ _
  by_cases hfull : limiter.max_requests ≤ purged.length
  · rw [if_pos hfull]
    by_cases hj : j = identifier
    · subst hj
      simp only [if_pos rfl]
      exact le_trans hple (h j)
    · simp only [if_neg hj]
      exact h j
  · rw [if_neg hfull]
    by_cases hj : j = identifier
    · subst hj
      simp only [eq_self_iff_true, if_true, List.length_append, List.length_singleton]
      omega
    · simp only [if_neg hj]
      exact h j

/-- Witness for C10: one check against the fresh 20/60 limiter keeps every
list within the bound; at the checked identifier the length is at most 20. -/
theorem rate_limiter_bounded_memory_witness :
    (((predict_rate_limiter.is_allowed "198.51.100.9" 0).2).requests "198.51.100.9").length
      ≤ predict_rate_limiter.max_requests :=
  rate_limiter_bounded_memory predict_rate_limiter "198.51.100.9" "198.51.100.9" 0
    (by intro i; simp [predict_rate_limiter])

/-- C6: on a chunk that brings the (non-timeout) buffer to the threshold
with a non-empty decoded array, the session emits the verdict; it closes
exactly when the confidence exceeds `CONFIDENCE_THRESHOLD = 0.7`, and
otherwise stays open with the buffer cleared, continuing to accept chunks. -/
theorem stream_confidence_threshold (predict : List ℚ → String × ℚ)
    (s : StreamState) (data : List ℕ)
    (h1 : s.closed = false)
    (h2 : AudioConfigBUFFER_SIZE_MS ≤ (s.buffer.append data).get_duration_ms)
    (h3 : 0 < (s.buffer.append data).get_audio_array.length) :
    (stream_amd_step predict s (.chunk data)).sent
      = s.sent ++ [⟨(predict (s.buffer.append data).get_audio_array).1,
                    (predict (s.buffer.append data).get_audio_array).2,
                    (s.buffer.append data).get_duration_ms, none⟩] ∧
    (HFConfigCONFIDENCE_THRESHOLD < (predict (s.buffer.append data).get_audio_array).2 →
      (stream_amd_step predict s (.chunk data)).closed = true) ∧
    (¬ HFConfigCONFIDENCE_THRESHOLD < (predict (s.buffer.append data).get_audio_array).2 →
      (stream_amd_step predict s (.chunk data)).closed = false ∧
      (stream_amd_step predict s (.chunk data)).buffer.is_empty = true) := by
  simp only [stream_amd_step, h1, Bool.false_eq_true, if_false]
  rw [if_pos h2, if_pos h3]
  by_cases hc : HFConfigCONFIDENCE_THRESHOLD < (predict (s.buffer.append data).get_audio_array).2
  · rw [if_pos hc]
    exact ⟨rfl, fun _ => rfl, fun hn => absurd hc hn⟩
  · rw [if_neg hc]
    exact ⟨rfl, fun hy => absurd hy hc, fun _ => ⟨rfl, rfl⟩⟩

/-- Witness for C6: a buffer at 48000 recorded samples plus one more chunk
reaches 3000 ms; with a 0.95-confidence prediction the session closes. -/
theorem stream_confidence_threshold_witness :
    (stream_amd_step (fun _ => ("human", 19/20))
      ⟨⟨16000, 1, [[0, 64]], 48000⟩, false, [], []⟩ (.chunk [0, 64])).closed = true :=
  (stream_confidence_threshold (fun _ => ("human", 19/20))
      ⟨⟨16000, 1, [[0, 64]], 48000⟩, false, [], []⟩ [0, 64]
      rfl (by decide) (by decide)).2.1
    (by norm_num [HFConfigCONFIDENCE_THRESHOLD])

/-- C7: a timeout with a non-empty buffer classifies the buffered audio,
emits exactly one verdict tagged `reason="timeout"`, and closes the session
regardless of the prediction — after which every further event is ignored,
so the session never returns to buffering. -/
theorem stream_timeout_closes (predict : List ℚ → String × ℚ) (s : StreamState)
    (h1 : s.closed = false) (h2 : s.buffer.is_empty = false) :
    (stream_amd_step predict s .timeout).sent
      = s.sent ++ [⟨(predict s.buffer.get_audio_array).1,
                    (predict s.buffer.get_audio_array).2,
                    s.buffer.get_duration_ms, some "timeout"⟩] ∧
    (stream_amd_step predict s .timeout).predicted
      = s.predicted ++ [s.buffer.get_audio_array] ∧
    (stream_amd_step predict s .timeout).closed = true ∧
    (∀ e, stream_amd_step predict (stream_amd_step predict s .timeout) e
      = stream_amd_step predict s .timeout) := by
  simp only [stream_amd_step, h1, h2, Bool.false_eq_true, if_false]
  exact ⟨trivial, trivial, trivial, fun e => rfl⟩

/-- Witness for C7: a one-chunk buffer hit by a timeout emits one
timeout-tagged verdict and closes. -/
theorem stream_timeout_closes_witness :
    (stream_amd_step (fun _ => ("voicemail", 2/5))
      ⟨⟨16000, 1, [[0, 64]], 1⟩, false, [], []⟩ .timeout).sent
      = [⟨"voicemail", 2/5, 0, some "timeout"⟩] ∧
    (stream_amd_step (fun _ => ("voicemail", 2/5))
      ⟨⟨16000, 1, [[0, 64]], 1⟩, false, [], []⟩ .timeout).closed = true := by
  have h := stream_timeout_closes (fun _ => ("voicemail", 2/5))
    ⟨⟨16000, 1, [[0, 64]], 1⟩, false, [], []⟩ rfl rfl
  exact ⟨by simpa using h.1, h.2.2.1⟩

/-- Counterexample to C3 as stated: a session that buffers the 4-byte chunk
`[0, 0, 0, 64]` (samples `[0, 1/2]`) and then times out invokes the
classifier on the raw decoded samples `[0, 1/2]`, whereas the §4.3
preprocessing (silence trim at 0.01, then peak-normalize to 0.9) of those
buffered samples yields `[9/10]` — so the classifier input was not
preprocessed. -/
theorem stream_no_preprocessing_cex :
    (stream_amd_run (fun _ => ("human", 19/20))
        [.chunk [0, 0, 0, 64], .timeout]).predicted = [[0, 1/2]] ∧
    normalize_audio (trim_silence [0, 1/2] (1/100) 16000) (9/10) = [9/10] ∧
    ([0, (1:ℚ)/2] ≠ [(9:ℚ)/10]) := by
  have ha : |(1:ℚ)/2| = 1/2 := abs_of_nonneg (by norm_num)
  have hz : |(0:ℚ)| = 0 := abs_zero
  refine ⟨?_, ?_, ?_⟩
  · have hrun : (stream_amd_run (fun _ => ("human", 19/20))
        [.chunk [0, 0, 0, 64], .timeout]).predicted
        = [bytesToSamples [0, 0, 0, 64]] := rfl
    have hdec : bytesToSamples [0, 0, 0, 64] = [0, 1/2] := by
      norm_num [bytesToSamples, int16val]
    rw [hrun, hdec]
  · have htrim : trim_silence [0, 1/2] (1/100) 16000 = [1/2] := by
      norm_num [trim_silence, ha, hz, List.findIdx_cons]
    rw [htrim]
    norm_num [normalize_audio, ha]
  · intro h
    have hlen := congrArg List.length h
    simp at hlen

/-- C3 (amended): whenever the streaming session classifies — on reaching
the buffering threshold or on an idle timeout with a non-empty buffer — the
classifier receives the buffer's raw decoded sample array as-is; the §4.3
silence-trimming and peak-normalization are not applied on the streaming
path (they run only in the one-shot `analyze_audio` path). -/
theorem stream_classifier_gets_raw_buffer (predict : List ℚ → String × ℚ)
    (s : StreamState) (e : StreamEvent) :
    (stream_amd_step predict s e).predicted = s.predicted ∨
    (∃ data, e = .chunk data ∧
      (stream_amd_step predict s e).predicted
        = s.predicted ++ [(s.buffer.append data).get_audio_array]) ∨
    (e = .timeout ∧
      (stream_amd_step predict s e).predicted
        = s.predicted ++ [s.buffer.get_audio_array]) := by
  cases hcl : s.closed with
  | true =>
    left
    simp [stream_amd_step, hcl]
  | false =>
    cases e with
    | chunk data =>
      simp only [stream_amd_step, hcl, Bool.false_eq_true, if_false]
      by_cases h2 : AudioConfigBUFFER_SIZE_MS ≤ (s.buffer.append data).get_duration_ms
      · rw [if_pos h2]
        by_cases h3 : 0 < (s.buffer.append data).get_audio_array.length
        · rw [if_pos h3]
          by_cases h4 : HFConfigCONFIDENCE_THRESHOLD
              < (predict (s.buffer.append data).get_audio_array).2
          · rw [if_pos h4]
            exact Or.inr (Or.inl ⟨data, rfl, rfl⟩)
          · rw [if_neg h4]
            exact Or.inr (Or.inl ⟨data, rfl, rfl⟩)
        · rw [if_neg h3]
          exact Or.inl rfl
      · rw [if_neg h2]
        exact Or.inl rfl
    | timeout =>
      simp only [stream_amd_step, hcl, Bool.false_eq_true, if_false]
      by_cases h2 : s.buffer.is_empty = true
      · simp only [h2, if_true]
        exact Or.inl trivial
      · have h2' : s.buffer.is_empty = false := by simpa using h2
        simp only [h2', Bool.false_eq_true, if_false]
        exact Or.inr (Or.inr ⟨trivial, trivial⟩)

/-- Counterexample to C2 as stated: with a successful upload and ready
poll, an exception from `generate_content` lands in the `except` branch,
which returns without calling `genai.delete_file` — the uploaded resource
is not deleted. -/
theorem gemini_missing_delete_cex :
    (GeminiAMDDetector.analyze_audio
      ⟨.ok ⟨"files/call_x"⟩, .ok .ready, .error ⟨"ReadTimeout"⟩⟩).uploaded = true ∧
    (GeminiAMDDetector.analyze_audio
      ⟨.ok ⟨"files/call_x"⟩, .ok .ready, .error ⟨"ReadTimeout"⟩⟩).deleted = false :=
  ⟨rfl, rfl⟩

/-- C2 (amended): the uploaded remote resource is deleted before
`analyze_audio` returns exactly on the two non-raising paths after a
successful generation — the blocked-response path and the parsed-text
path; when any step after the upload raises (poll failure, the FAILED
processing state, or a generation failure), the `except` branch returns
without deleting it. -/
theorem gemini_cleanup_characterization (o : GeminiOutcome) :
    ((GeminiAMDDetector.analyze_audio o).uploaded = true ↔ ∃ f, o.upload = .ok f) ∧
    ((GeminiAMDDetector.analyze_audio o).deleted = true ↔
      (∃ f, o.upload = .ok f) ∧ o.poll = .ok .ready ∧ ∃ g, o.generate = .ok g) := by
  obtain ⟨u, p, g⟩ := o
  cases u with
  | error e => simp [GeminiAMDDetector.analyze_audio]
  | ok f =>
    cases p with
    | error e => simp [GeminiAMDDetector.analyze_audio]
    | ok st =>
      cases st with
      | failed => simp [GeminiAMDDetector.analyze_audio]
      | ready =>
        cases g with
        | error e => simp [GeminiAMDDetector.analyze_audio]
        | ok gr =>
          cases gr with
          | blocked => simp [GeminiAMDDetector.analyze_audio]
          | text jsonPart raw =>
            simp only [GeminiAMDDetector.analyze_audio]
            split <;> simp

/-- Reasoning of the local detector's error path is bounded: the fixed
prefix (18 characters) plus at most 100 characters of `str(e)`. -/
theorem hf_error_reasoning_bounded (e : String) :
    (HuggingFaceAMDDetector.errorResponse e).reasoning.length ≤ 118 := by
  have h1 : (HuggingFaceAMDDetector.errorResponse e).reasoning
      = "Processing error: " ++ py_slice_to e 100 := rfl
  have h2 : (py_slice_to e 100).length = min 100 e.data.length := by
    have : (py_slice_to e 100).length = (e.data.take 100).length := rfl
    rw [this, List.length_take]
  have h3 : ("Processing error: " : String).length = 18 := rfl
  rw [h1, String.length_append, h3, h2]
  omega

/-- Counterexample to C1 as stated: an exception during the remote
(Gemini) variant's processing (here, a failing upload) produces an
undecided verdict whose confidence is 0.3, not 0. -/
theorem gemini_error_confidence_cex :
    (GeminiAMDDetector.analyze_audio
      ⟨.error ⟨"ConnectionError"⟩, .ok .ready, .ok .blocked⟩).response.result = "UNDECIDED" ∧
    (GeminiAMDDetector.analyze_audio
      ⟨.error ⟨"ConnectionError"⟩, .ok .ready, .ok .blocked⟩).response.confidence = 3/10 ∧
    ((3 : ℚ)/10 ≠ 0) :=
  ⟨rfl, rfl, by norm_num⟩

/-- C1 (amended): every exception raised during preprocessing or inference
is downgraded to an unknown/undecided verdict and never propagated.  The
local (HuggingFace) variant returns confidence 0 with a diagnostic of at
most 118 characters (`str(e)` truncated to 100); the remote (Gemini)
variant returns confidence 0.3 with the diagnostic
`"Processing error: " ++ type(e).__name__`. -/
theorem analyze_audio_error_handling :
    (∀ (o : HFOutcome) (preprocess : Bool) (e : String),
      (o.loadResult = .error e ∨
       (∃ sr, o.loadResult = .ok ([], sr) ∧ e = "Empty audio array") ∨
       ((∃ arr sr, o.loadResult = .ok (arr, sr) ∧ arr ≠ []) ∧ o.predictResult = .error e)) →
      HuggingFaceAMDDetector.analyze_audio o preprocess
        = HuggingFaceAMDDetector.errorResponse e ∧
      (HuggingFaceAMDDetector.analyze_audio o preprocess).label = "unknown" ∧
      (HuggingFaceAMDDetector.analyze_audio o preprocess).confidence = 0 ∧
      (HuggingFaceAMDDetector.analyze_audio o preprocess).reasoning.length ≤ 118) ∧
    (∀ (o : GeminiOutcome) (e : PyExc),
      (o.upload = .error e ∨
       ((∃ f, o.upload = .ok f) ∧
        (o.poll = .error e ∨
         (o.poll = .ok .failed ∧ e = ⟨"Exception"⟩) ∨
         (o.poll = .ok .ready ∧ o.generate = .error e)))) →
      (GeminiAMDDetector.analyze_audio o).response = GeminiAMDDetector.errorResponse e ∧
      (GeminiAMDDetector.analyze_audio o).response.result = "UNDECIDED" ∧
      (GeminiAMDDetector.analyze_audio o).response.confidence = 3/10 ∧
      (GeminiAMDDetector.analyze_audio o).response.reasoning
        = "Processing error: " ++ e.name) := by
  constructor
  · intro o preprocess e hcase
    obtain ⟨lr, pr⟩ := o
    have hmain : HuggingFaceAMDDetector.analyze_audio ⟨lr, pr⟩ preprocess
        = HuggingFaceAMDDetector.errorResponse e := by
      rcases hcase with h | ⟨sr, h, he⟩ | ⟨⟨arr, sr, h, hne⟩, hp⟩
      · simp only at h
        subst h
        rfl
      · simp only at h he
        subst h
        subst he
        rfl
      · simp only at h hp
        subst h
        subst hp
        simp only [HuggingFaceAMDDetector.analyze_audio]
        rw [if_neg (fun hc => hne (List.length_eq_zero.mp hc))]
    rw [hmain]
    exact ⟨rfl, rfl, rfl, hf_error_reasoning_bounded e⟩
  · intro o e hcase
    obtain ⟨u, p, g⟩ := o
    have hmain : (GeminiAMDDetector.analyze_audio ⟨u, p, g⟩).response
        = GeminiAMDDetector.errorResponse e := by
      rcases hcase with h | ⟨⟨f, hf⟩, h | ⟨hp, he⟩ | ⟨hp, hg⟩⟩
      · simp only at h
        subst h
        rfl
      · simp only at hf h
        subst hf
        subst h
        rfl
      · simp only at hf hp he
        subst hf
        subst hp
        subst he
        rfl
      · simp only at hf hp hg
        subst hf
        subst hp
        subst hg
        rfl
    rw [hmain]
    exact ⟨rfl, rfl, rfl, rfl⟩

/-- Witness for C1 (amended): a failing `load_audio_from_bytes` makes the
local variant return its error response, and a failing upload makes the
remote variant return confidence 0.3. -/
theorem analyze_audio_error_handling_witness :
    HuggingFaceAMDDetector.analyze_audio ⟨.error "boom", .ok ("human", 1)⟩ true
      = HuggingFaceAMDDetector.errorResponse "boom" ∧
    (GeminiAMDDetector.analyze_audio
      ⟨.error ⟨"Timeout"⟩, .ok .ready, .ok .blocked⟩).response.confidence = 3/10 :=
  ⟨(analyze_audio_error_handling.1 ⟨.error "boom", .ok ("human", 1)⟩ true "boom" (Or.inl rfl)).1,
   (analyze_audio_error_handling.2 ⟨.error ⟨"Timeout"⟩, .ok .ready, .ok .blocked⟩ ⟨"Timeout"⟩
      (Or.inl rfl)).2.2.1⟩
